import Mathlib

/-!
Verification of the ThemisAI retrieval-fusion-and-context-assembly pipeline.

The definitions below are a shallow embedding of `app/domain/rag_domain.py`
and of the hybrid (RRF) fusion in `app/services/opensearch_service.py`.
Python floats are modelled as exact rationals (`ℚ`), Python ints as `ℤ`/`ℕ`,
Python dicts as association lists, and the SHA-256 content hash used for
deduplication is modelled as the normalized text itself (a collision-free
content key, which is the reading the spec itself adopts).
-/

/-- Whitespace test matching the characters Python's `\s` / `str.strip`
recognise in the ASCII range (the texts handled by the pipeline). -/
def is_ws (c : Char) : Bool :=
  c = ' ' || c = '\t' || c = '\n' || c = '\r' || c = '\x0b' || c = '\x0c'

/-- `str.strip` on the underlying character list. -/
def strip_list (l : List Char) : List Char :=
  ((l.dropWhile is_ws).reverse.dropWhile is_ws).reverse

/-- `str.rstrip` on the underlying character list. -/
def rstrip_list (l : List Char) : List Char :=
  (l.reverse.dropWhile is_ws).reverse

/-- Replace every maximal run of whitespace by a single space
(the effect of `re.sub(r"\s+", " ", ·)`); `prevWs` records whether the
previous character belonged to a whitespace run. -/
def collapse_ws_go : Bool → List Char → List Char
  | _, [] => []
  | prevWs, c :: rest =>
    if is_ws c then
      if prevWs then collapse_ws_go true rest
      else ' ' :: collapse_ws_go true rest
    else c :: collapse_ws_go false rest

/-- `_normalize_text`: trim, then collapse internal whitespace runs. -/
def normalize_text (s : String) : String :=
  ⟨collapse_ws_go false (strip_list s.data)⟩

/-- `_hash_text`: SHA-256 of the normalized text, modelled as the normalized
text itself (an injective content key). -/
def hash_text (s : String) : String :=
  normalize_text s

/-- `str.strip` on `String`. -/
def strip_str (s : String) : String :=
  ⟨strip_list s.data⟩

/-- `str.lower` on `String` (character-wise, as in the code's ASCII keys). -/
def lower_str (s : String) : String :=
  ⟨s.data.map Char.toLower⟩

/-- `s[:n]` on `String`. -/
def take_str (s : String) (n : Nat) : String :=
  ⟨s.data.take n⟩

/-- `str.rstrip` on `String`. -/
def rstrip_str (s : String) : String :=
  ⟨rstrip_list s.data⟩

/-- `sep.join(parts)`. -/
def join_sep (sep : String) : List String → String
  | [] => ""
  | [x] => x
  | x :: y :: rest => x ++ sep ++ join_sep sep (y :: rest)

/-- A `Citation` produced by the pipeline (`rag_domain.Citation`);
`meta` is the metadata dict, modelled as an association list of strings. -/
structure Citation where
  id : Option String
  score : Option ℚ
  text : String
  meta : List (String × String)
deriving DecidableEq

/-- `RagRequest` (`rag_domain.RagRequest`). -/
structure RagRequest where
  question : String
  top_k : ℕ := 3
  answer_max_tokens : Option ℤ := none
  max_tokens : Option ℤ := none
  style : Option String := none
  search_mode : Option String := none
  max_context_chars : Option ℤ := none

/-- `RagSettings` (`rag_domain.RagSettings`) with the source's defaults. -/
structure RagSettings where
  system_prompt_base : String :=
    "Você é um assistente que responde de forma detalhada e baseada na base de dados.\n" ++
    "Se a resposta não estiver nos trechos, diga claramente que não encontrou com base no contexto.\n" ++
    "Responda em português do Brasil.\n"
  system_prompt_strict : String :=
    "Você é um assistente que responde os detalhes ESTRITAMENTE com base nos trechos fornecidos.\n" ++
    "Se a informação não estiver clara nos trechos, diga que NÃO encontrou com base no contexto.\n" ++
    "Inclua marcações [1], [2], ... para referenciar os trechos usados quando aplicável.\n" ++
    "Responda em português do Brasil.\n"
  min_citations_to_answer : ℤ := 1
  min_score : Option ℚ := none
  dedupe : Bool := true
  short_circuit_on_empty : Bool := true
  fallback_answer : String :=
    "Não encontrei informação suficiente nos trechos recuperados para responder com confiança."
  ensure_citations_in_output : Bool := false
  ctx_size : ℤ := 4096
  reserve_tokens : ℤ := 64
  chars_per_token : ℚ := 4
  max_context_chars : ℤ := 16000

/-- `RagResponse`. -/
structure RagResponse where
  answer : String
  citations : List Citation
deriving DecidableEq

/-- Loop of `_dedupe_citations`: `seen` is the set of hashes already kept. -/
def dedupe_go (seen : List String) : List Citation → List Citation
  | [] => []
  | c :: rest =>
    if hash_text c.text ∈ seen then dedupe_go seen rest
    else c :: dedupe_go (hash_text c.text :: seen) rest

/-- `_dedupe_citations`: keep the first occurrence of each text hash. -/
def dedupe_citations (citations : List Citation) : List Citation :=
  dedupe_go [] citations

/-- `_apply_score_filter`: keep citations whose score is present and
at least `min_score`; identity when `min_score` is `None`. -/
def apply_score_filter (citations : List Citation) (min_score : Option ℚ) : List Citation :=
  match min_score with
  | none => citations
  | some m => citations.filter (fun c => match c.score with
      | some sc => m ≤ sc
      | none => false)

/-- `_estimate_tokens`: `max(1, int(len(s) / max(1e-6, cpt)))`; the float
`1e-6` guard is modelled as the rational `1/1000000`. -/
def estimate_tokens (s : String) (cpt : ℚ) : ℕ :=
  max 1 (Int.toNat ⌊(s.length : ℚ) / max ((1 : ℚ)/1000000) cpt⌋)

/-- Token cost the packer charges for one citation: estimated tokens plus
the 8-token formatting margin. -/
def pack_need (cpt : ℚ) (c : Citation) : ℤ :=
  (estimate_tokens c.text cpt : ℤ) + 8

/-- Loop of `_pack_by_token_budget` (`acc` is kept reversed, as the Python
list is appended to; `used` is the running token total). -/
def pack_go (cpt : ℚ) (maxTokens : ℤ) : List Citation → List Citation → ℤ → List Citation
  | [], acc, _ => acc.reverse
  | c :: rest, acc, used =>
    if acc ≠ [] ∧ maxTokens < used + pack_need cpt c then acc.reverse
    else
      if maxTokens ≤ used + pack_need cpt c then (c :: acc).reverse
      else pack_go cpt maxTokens rest (c :: acc) (used + pack_need cpt c)

/-- `_pack_by_token_budget`. -/
def pack_by_token_budget (citations : List Citation) (maxTokens : ℤ) (cpt : ℚ) : List Citation :=
  if maxTokens ≤ 0 then citations.take 1
  else if pack_go cpt maxTokens citations [] 0 = [] ∧ citations ≠ [] then citations.take 1
  else pack_go cpt maxTokens citations [] 0

/-- The clipped citation built by `_truncate_by_char_budget` when the last
included snippet has to be cut: `txt[: remaining - 3].rstrip() + "..."`. -/
def clip_citation (c : Citation) (remaining : ℤ) : Citation :=
  ⟨c.id, c.score, rstrip_str (take_str c.text (remaining - 3).toNat) ++ "...", c.meta⟩

/-- Total character count of the citation texts. -/
def total_text_len (citations : List Citation) : ℤ :=
  (citations.map (fun c => (c.text.length : ℤ))).sum

/-- Loop of `_truncate_by_char_budget` (`total` is the running character
count of the snippets already included). -/
def trunc_go (maxChars : ℤ) : List Citation → ℤ → List Citation
  | [], _ => []
  | c :: rest, total =>
    if c.text = "" then trunc_go maxChars rest total
    else if total + (c.text.length : ℤ) ≤ maxChars then
      c :: trunc_go maxChars rest (total + (c.text.length : ℤ))
    else
      if 50 < maxChars - total then [clip_citation c (maxChars - total)]
      else []

/-- `_truncate_by_char_budget` (`None`/non-positive budget returns the
input unchanged). -/
def truncate_by_char_budget (citations : List Citation) (maxChars : Option ℤ) : List Citation :=
  match maxChars with
  | none => citations
  | some m => if m ≤ 0 then citations else trunc_go m citations 0

/-- `dict.get(k)` on the metadata association list. -/
def meta_get (meta : List (String × String)) (k : String) : Option String :=
  (meta.find? (fun p => p.1 = k)).map (fun p => p.2)

/-- Python's `a or b` on optional strings: `b` when `a` is `None` or empty. -/
def or_str (a b : Option String) : Option String :=
  match a with
  | some s => if s = "" then b else some s
  | none => b

/-- The `meta_str` computed per citation by `_render_context_block`: a
`"\nFonte: …"` line when `c.meta` is non-empty and the
`url`/`source`/`id`-in-meta/`c.id` chain yields a truthy value. -/
def meta_line (c : Citation) : String :=
  if c.meta = [] then ""
  else
    match or_str (meta_get c.meta "url")
        (or_str (meta_get c.meta "source") (or_str (meta_get c.meta "id") c.id)) with
    | some s => if s = "" then "" else "\nFonte: " ++ s
    | none => ""

/-- The numbered lines built by `_render_context_block`. -/
def context_entries (citations : List Citation) : List String :=
  citations.enum.map (fun p => "[" ++ toString (p.1 + 1) ++ "] " ++ p.2.text ++ meta_line p.2)

/-- `_render_context_block`. -/
def render_context_block (citations : List Citation) : String :=
  join_sep "\n\n" (context_entries citations)

/-- `_NO_DISPONIBLE`. -/
def no_disponible : String := "(nenhum trecho disponível)"

/-- The plain `[n] text` lines built inline by `build_prompt_base`
(note: no source line, unlike `_render_context_block`). -/
def base_entries (citations : List Citation) : List String :=
  citations.enum.map (fun p => "[" ++ toString (p.1 + 1) ++ "] " ++ p.2.text)

/-- `build_prompt_base`. -/
def build_prompt_base (question : String) (citations : List Citation) (s : RagSettings) : String :=
  if citations = [] then
    s.system_prompt_base ++ "\n# Pergunta\n" ++ question ++
      "\n\n# Trechos\n(nenhum trecho disponível)\n\n# Resposta:"
  else
    s.system_prompt_base ++ "\n# Pergunta\n" ++ question ++ "\n\n# Trechos\n" ++
      join_sep "\n\n" (base_entries citations) ++ "\n\n# Resposta:"

/-- `build_prompt_audit_bullets`. -/
def build_prompt_audit_bullets (question : String) (citations : List Citation) (s : RagSettings) : String :=
  if citations = [] then
    s.system_prompt_strict ++
      "Formate como uma lista de tópicos curtos e verificáveis. Cada afirmação importante deve terminar com [n].\n" ++
      "\n# Pergunta\n" ++ question ++
      "\n\n# Trechos\n(nenhum trecho disponível)\n\n# Resposta (bullets curtos; diga que não encontrou se não houver base):"
  else
    s.system_prompt_strict ++
      "Formate como uma lista de tópicos curtos e verificáveis. Cada afirmação importante deve terminar com [n].\n" ++
      "\n# Pergunta\n" ++ question ++ "\n\n# Trechos (use [n])\n" ++
      render_context_block citations ++ "\n\n# Resposta (cada linha com [n]):"


/-- `build_prompt_concise`. -/
def build_prompt_concise (question : String) (citations : List Citation) (s : RagSettings) : String :=
  s.system_prompt_strict ++
    "Responda de forma concisa em 3–6 bullets; cada linha deve terminar com [n].\n\n" ++
    "# Pergunta\n" ++ question ++ "\n\n# Trechos\n" ++
    (if citations = [] then no_disponible else render_context_block citations) ++
    "\n\n# Resposta:"

/-- `build_prompt_qa`. -/
def build_prompt_qa (question : String) (citations : List Citation) (s : RagSettings) : String :=
  s.system_prompt_strict ++
    "Forneça primeiro uma RESPOSTA DIRETA (1–2 frases). Depois, DETALHES em bullets com [n].\n\n" ++
    "# Pergunta\n" ++ question ++ "\n\n# Trechos (use [n])\n" ++
    (if citations = [] then no_disponible else render_context_block citations) ++
    "\n\n# Resposta direta:\n\n# Detalhes:\n- "

/-- `build_prompt_verdict` (defined in the source but not dispatched). -/
def build_prompt_verdict (question : String) (citations : List Citation) (s : RagSettings) : String :=
  s.system_prompt_strict ++
    "Responda com um VEREDITO (Sim/Não/Parcial) em uma linha, seguido de justificativa curta com [n].\n\n" ++
    "# Pergunta\n" ++ question ++ "\n\n# Trechos (use [n])\n" ++
    (if citations = [] then no_disponible else render_context_block citations) ++
    "\n\n# Resposta:\nVeredicto: ...\nJustificativa: ... [n]"

/-- `build_prompt_compare`. -/
def build_prompt_compare (question : String) (citations : List Citation) (s : RagSettings) : String :=
  s.system_prompt_strict ++
    "Produza uma TABELA Markdown comparando itens. Colunas: Item | Evidência [n] | Observações.\n\n" ++
    "# Pergunta\n" ++ question ++ "\n\n# Trechos (use [n])\n" ++
    (if citations = [] then no_disponible else render_context_block citations) ++
    "\n\n# Resposta (tabela Markdown):\n| Item | Evidência | Observações |\n|---|---|---|\n"

/-- `build_prompt_table`. -/
def build_prompt_table (question : String) (citations : List Citation) (s : RagSettings) : String :=
  s.system_prompt_strict ++
    "Resuma em uma TABELA Markdown. Colunas: Campo | Conteúdo | Fonte [n].\n\n" ++
    "# Pergunta\n" ++ question ++ "\n\n# Trechos (use [n])\n" ++
    (if citations = [] then no_disponible else render_context_block citations) ++
    "\n\n# Resposta (tabela Markdown):\n| Campo | Conteúdo | Fonte |\n|---|---|---|\n"

/-- `build_prompt_json`. -/
def build_prompt_json (question : String) (citations : List Citation) (s : RagSettings) : String :=
  s.system_prompt_strict ++
    "Retorne estritamente um JSON válido com as chaves: `answer` (string), `bullets` (array de strings), `citations_used` (array de ints). Cada bullet deve conter [n]. Não retorne nada fora do JSON.\n\n" ++
    "# Pergunta\n" ++ question ++ "\n\n# Trechos (use [n])\n" ++
    (if citations = [] then no_disponible else render_context_block citations) ++
    "\n\n# Resposta (apenas JSON):"

/-- `build_prompt_procedure` (defined in the source but not dispatched). -/
def build_prompt_procedure (question : String) (citations : List Citation) (s : RagSettings) : String :=
  s.system_prompt_strict ++
    "Forneça um PROCEDIMENTO em passos numerados (1–5), cada passo ancorado em [n].\n\n" ++
    "# Pergunta\n" ++ question ++ "\n\n# Trechos (use [n])\n" ++
    (if citations = [] then no_disponible else render_context_block citations) ++
    "\n\n# Resposta:\n1) ... [n]\n2) ... [n]"

/-- `build_prompt_exec_summary` (defined in the source but not dispatched). -/
def build_prompt_exec_summary (question : String) (citations : List Citation) (s : RagSettings) : String :=
  s.system_prompt_strict ++
    "Produza um RESUMO EXECUTIVO (3 bullets), depois RISCOS (até 3), e LACUNAS (até 2). Tudo com [n].\n\n" ++
    "# Pergunta\n" ++ question ++ "\n\n# Trechos (use [n])\n" ++
    (if citations = [] then no_disponible else render_context_block citations) ++
    "\n\n# Resumo executivo:\n- ... [n]\n- ... [n]\n- ... [n]\n\n# Riscos:\n- ... [n]\n\n# Lacunas:\n- ... [n]"

/-- `build_prompt_mitre_card`. -/
def build_prompt_mitre_card (question : String) (citations : List Citation) (s : RagSettings) : String :=
  s.system_prompt_strict ++
    "Formate como um cartão MITRE ATT&CK (mobile): Tática(s), Técnica/Subtécnica, Plataformas, Mitigações, Detecções, Referências. Cada afirmação com [n].\n\n" ++
    "# Pergunta\n" ++ question ++ "\n\n# Trechos (use [n])\n" ++
    (if citations = [] then no_disponible else render_context_block citations) ++
    "\n\n# Resposta (cartão):\n## Tática(s):\n- ... [n]\n\n## Técnica/Subtécnica:\n- ... [n]\n\n## Plataformas:\n- ... [n]\n\n## Mitigações:\n- ... [n]\n\n## Detecções:\n- ... [n]\n\n## Referências:\n- ... [n]"

/-- The style key computed by `build_prompt`: `(style or "base").lower()`. -/
def style_key (style : Option String) : String :=
  lower_str (match style with
    | none => "base"
    | some st => if st = "" then "base" else st)

/-- `build_prompt` dispatch.  In the source the `verdict`, `procedure` and
`exec-summary` branches are commented out, so those keys fall through to
the final default branch. -/
def build_prompt (question : String) (citations : List Citation) (s : RagSettings)
    (style : Option String) : String :=
  if style_key style = "base" then build_prompt_base question citations s
  else if style_key style = "audit-bullets" then build_prompt_audit_bullets question citations s
  else if style_key style = "concise" then build_prompt_concise question citations s
  else if style_key style = "qa" then build_prompt_qa question citations s
  else if style_key style = "compare" then build_prompt_compare question citations s
  else if style_key style = "table" then build_prompt_table question citations s
  else if style_key style = "json" then build_prompt_json question citations s
  else if style_key style = "mitre-card" then build_prompt_mitre_card question citations s
  else build_prompt_base question citations s

/-- After a `[`: does `\s*\d+\s*]` follow?  (`_CITATION_TAG_RE` body.) -/
def tag_after_bracket (l : List Char) : Bool :=
  let l1 := l.dropWhile is_ws
  let digits := l1.takeWhile Char.isDigit
  let l2 := (l1.dropWhile Char.isDigit).dropWhile is_ws
  !digits.isEmpty &&
    (match l2 with
     | ']' :: _ => true
     | _ => false)

/-- `_CITATION_TAG_RE.search`: some position starts a `[\s*\d+\s*]` match. -/
def has_citation_tag : List Char → Bool
  | [] => false
  | c :: rest => (c = '[' && tag_after_bracket rest) || has_citation_tag rest

/-- A raw "slim" retrieval hit (`{"id", "score", "text", "meta"}`);
an absent `text` key is modelled as the empty string, which Python's
truthiness test treats identically. -/
structure RawHit where
  id : Option String
  score : Option ℚ
  text : String
  meta : List (String × String)
deriving DecidableEq

/-- The retriever port; `search_hybrid_slim` is `none` when the retriever
object lacks that attribute (the `hasattr` check in `ask`). -/
structure Retriever where
  search_knn_slim : String → ℕ → List RawHit
  search_hybrid_slim : Option (String → ℕ → List RawHit)

/-- The generator port: `generate_response_async(prompt, max_tokens)`;
`Except.error e` models a raised exception with text `e`. -/
def GeneratorFn : Type := String → ℤ → Except String String

/-- `(req.search_mode or "knn").strip().lower()`. -/
def norm_mode (m : Option String) : String :=
  lower_str (strip_str (match m with
    | none => "knn"
    | some s => if s = "" then "knn" else s))

/-- The RETRIEVING step of `ask`. -/
def retrieve_hits (ret : Retriever) (req : RagRequest) : List RawHit :=
  if norm_mode req.search_mode = "hybrid" then
    match ret.search_hybrid_slim with
    | some f => f req.question req.top_k
    | none => ret.search_knn_slim req.question req.top_k
  else ret.search_knn_slim req.question req.top_k

/-- The citation-building comprehension in `ask`: drop hits with falsy
`text`, normalize the text, default `meta` to the empty dict. -/
def citations_of_hits (hits : List RawHit) : List Citation :=
  (hits.filter (fun h => h.text ≠ "")).map
    (fun h => ⟨h.id, h.score, normalize_text h.text, h.meta⟩)

/-- The CURATING step of `ask`: optional dedupe, then score filter. -/
def curated_citations (s : RagSettings) (hits : List RawHit) : List Citation :=
  apply_score_filter
    (if s.dedupe then dedupe_citations (citations_of_hits hits)
     else citations_of_hits hits)
    s.min_score

/-- `answer_max_int`: legacy default chain, then clamp to `[64, 2000]`. -/
def answer_max_int (req : RagRequest) : ℤ :=
  max 64 (min (req.answer_max_tokens.getD (req.max_tokens.getD 400)) 2000)

/-- `available_ctx_tokens`: the 128-floored context budget. -/
def available_ctx_tokens (s : RagSettings) (req : RagRequest) : ℤ :=
  max 128 (s.ctx_size - answer_max_int req - s.reserve_tokens -
    (estimate_tokens req.question s.chars_per_token : ℤ))

/-- The citations that survive BUDGETING (curation, token packing, and the
character cap) — exactly the list `ask` short-circuits or generates with. -/
def surviving_citations (s : RagSettings) (req : RagRequest) (hits : List RawHit) : List Citation :=
  truncate_by_char_budget
    (pack_by_token_budget (curated_citations s hits) (available_ctx_tokens s req) s.chars_per_token)
    (some (req.max_context_chars.getD s.max_context_chars))

/-- The `ensure_citations_in_output` guard-rail: append the advisory note
when enabled, citations are present, and no `[n]` tag occurs. -/
def ensure_tag_note (s : RagSettings) (citations : List Citation) (answer : String) : String :=
  if s.ensure_citations_in_output = true ∧ citations ≠ [] ∧
      has_citation_tag answer.data = false then
    answer ++ "\n\nObservação: inclua referências [n] na próxima resposta."
  else answer

/-- The two output guards of `ask`: empty answers become the fallback, then
the citation-tag note may be appended. -/
def guard_answer (s : RagSettings) (citations : List Citation) (answer : String) : String :=
  ensure_tag_note s citations (if answer = "" then s.fallback_answer else answer)

/-- The COMPOSING/GENERATING/GUARDING tail of `ask` (runs only when the
short-circuit did not fire). -/
def ask_generate (gen : GeneratorFn) (s : RagSettings) (req : RagRequest)
    (citations : List Citation) : RagResponse :=
  ⟨guard_answer s citations
    (match gen (build_prompt req.question citations s req.style) (answer_max_int req) with
     | Except.ok a => strip_str a
     | Except.error e => s.fallback_answer ++ " (erro do gerador: " ++ e ++ ")"),
   citations⟩

/-- `RagDomain.ask`. -/
def ask (ret : Retriever) (gen : GeneratorFn) (s : RagSettings) (req : RagRequest) : RagResponse :=
  if ((surviving_citations s req (retrieve_hits ret req)).length : ℤ) <
      s.min_citations_to_answer ∧ s.short_circuit_on_empty = true then
    ⟨s.fallback_answer, surviving_citations s req (retrieve_hits ret req)⟩
  else
    ask_generate gen s req (surviving_citations s req (retrieve_hits ret req))

/-- A raw OpenSearch hit as consumed by `search_hybrid_slim`: `hid` is
`h["_id"]` (the empty string models a missing/falsy id, which the rank-map
builder skips), `text`/`meta` are the `_source` fields (empty defaults). -/
structure OSHit where
  hid : String
  text : String
  meta : List (String × String)
deriving DecidableEq

/-- The `for i, h in enumerate(hits, start=1)` loop of `to_rank_map`:
`n` is the 1-based position of the list head; a later occurrence of the
same id overwrites an earlier one (dict assignment). -/
def rank_go (id : String) : ℕ → List OSHit → Option ℕ
  | _, [] => none
  | n, h :: rest =>
    match rank_go id (n + 1) rest with
    | some r => some r
    | none => if h.hid = id then some n else none

/-- `to_rank_map` lookup: the 1-based rank of `id` in `hits`; a duplicated
id keeps the rank of its last occurrence (dict assignment overwrites), and
falsy ids are never stored. -/
def to_rank_map (hits : List OSHit) (id : String) : Option ℕ :=
  if id = "" then none else rank_go id 1 hits

/-- The RRF constant `K = 60.0`. -/
def rrf_k : ℚ := 60

/-- One list's reciprocal-rank contribution: `1/(K + rank)` when the id is
ranked, `0` when absent. -/
def rrf_contrib (rank : Option ℕ) : ℚ :=
  match rank with
  | some r => 1 / (rrf_k + (r : ℚ))
  | none => 0

/-- The `fused` list before sorting: one `(id, score)` pair per id of the
iterated id set.  Python iterates `set(r_knn) | set(r_bm25)` in an
unspecified (hash-dependent) order, so the enumeration is a parameter. -/
def fused_pairs (idsEnum : List String) (knn bm25 : List OSHit) : List (String × ℚ) :=
  idsEnum.map (fun id =>
    (id, rrf_contrib (to_rank_map knn id) + rrf_contrib (to_rank_map bm25 id)))

/-- `fused.sort(key=lambda x: x[1], reverse=True)`: Python's sort is the
stable descending sort, which is extensionally the insertion sort that
puts `a` before `b` whenever `b.2 ≤ a.2`. -/
def fused_sorted (idsEnum : List String) (knn bm25 : List OSHit) : List (String × ℚ) :=
  List.insertionSort (fun a b : String × ℚ => b.2 ≤ a.2) (fused_pairs idsEnum knn bm25)

/-- `src_by_id` lookup: the `_source` of the LAST hit in `hits` carrying
`id` (dict-comprehension overwrite), with empty defaults when absent. -/
def src_by_id (hits : List OSHit) (id : String) : String × List (String × String) :=
  match (hits.filter (fun h => h.hid = id)).getLast? with
  | some h => (h.text, h.meta)
  | none => ("", [])

/-- A "slim" hybrid result row. -/
structure SlimHit where
  id : String
  score : ℚ
  text : String
  meta : List (String × String)
deriving DecidableEq

/-- The fusion part of `OpenSearchService.search_hybrid_slim`, from the two
sub-search results onward (the sub-searches themselves are external I/O):
fuse, sort, take `top_k`, and resolve text/meta through `src_by_id` built
over `knn_hits + bm25_hits`. -/
def search_hybrid_slim (idsEnum : List String) (knn bm25 : List OSHit) (top_k : ℕ) : List SlimHit :=
  ((fused_sorted idsEnum knn bm25).take top_k).map
    (fun p => ⟨p.1, p.2, (src_by_id (knn ++ bm25) p.1).1, (src_by_id (knn ++ bm25) p.1).2⟩)

/-- A canonical listing of `set(r_knn) | set(r_bm25)`: the truthy ids of
both hit lists, deduplicated. -/
def union_ids (knn bm25 : List OSHit) : List String :=
  (((knn ++ bm25).map (fun h => h.hid)).filter (fun id => id ≠ "")).dedup

/-- An id enumeration is valid iff it lists the id set exactly once each —
this is everything Python guarantees about iterating the set. -/
def ValidIdsEnum (idsEnum : List String) (knn bm25 : List OSHit) : Prop :=
  idsEnum.Perm (union_ids knn bm25)

/-- First-occurrence deduplication, via a seen-accumulator
(claim side: "first-seen order"). -/
def first_occ_go (seen : List String) : List String → List String
  | [] => []
  | x :: rest =>
    if x ∈ seen then first_occ_go seen rest
    else x :: first_occ_go (x :: seen) rest

/-- First-occurrence deduplication (claim side: "first-seen order"). -/
def first_occ_dedup (l : List String) : List String :=
  first_occ_go [] l

/-- The id set in first-seen order across the two input lists (KNN first),
as claim C1 asserts ties are broken. -/
def first_seen_ids (knn bm25 : List OSHit) : List String :=
  first_occ_dedup (((knn ++ bm25).map (fun h => h.hid)).filter (fun id => id ≠ ""))

/-- The source field of claim C7 as literally stated: first truthy value
among explicit URL, explicit source name, citation id. -/
def claim_source_field (c : Citation) : Option String :=
  ([meta_get c.meta "url", meta_get c.meta "source", c.id].filterMap (fun x => x)).find?
    (fun s => s ≠ "")

/-- The source field the code actually uses, phrased spec-side: nothing
when the meta mapping is empty, else the first truthy value among meta
`url`, meta `source`, meta `id`, citation id. -/
def spec_source_field (c : Citation) : Option String :=
  if c.meta = [] then none
  else
    ([meta_get c.meta "url", meta_get c.meta "source", meta_get c.meta "id", c.id].filterMap
      (fun x => x)).find? (fun s => s ≠ "")

/-- Render an optional source as the `"\nFonte: …"` line (or nothing). -/
def source_line (o : Option String) : String :=
  match o with
  | some s => "\nFonte: " ++ s
  | none => ""

/-- Claim C7's per-citation entry: `"[n] text"` plus the source line chosen
by the claimed priority. -/
def claim_entry (n : ℕ) (c : Citation) : String :=
  "[" ++ toString n ++ "] " ++ c.text ++ source_line (claim_source_field c)

/-- The base prompt as claim C7 predicts it: the base scaffold, but with
every citation entry carrying the claimed source line. -/
def claim_base_prompt (question : String) (citations : List Citation) (s : RagSettings) : String :=
  s.system_prompt_base ++ "\n# Pergunta\n" ++ question ++ "\n\n# Trechos\n" ++
    join_sep "\n\n" (citations.enum.map (fun p => claim_entry (p.1 + 1) p.2)) ++
    "\n\n# Resposta:"

/-- Claim C1's fused score: `Σ_over_lists_containing_id 1/(60 + rank)`. -/
def claim_rrf_score (knn bm25 : List OSHit) (id : String) : ℚ :=
  (match to_rank_map knn id with
   | some r => 1 / (60 + (r : ℚ))
   | none => 0) +
  (match to_rank_map bm25 id with
   | some r => 1 / (60 + (r : ℚ))
   | none => 0)

/-- Token cost of a packed list, margin included (claim C5's
"total estimated tokens including the 8-token formatting margin"). -/
def total_need (cpt : ℚ) (citations : List Citation) : ℤ :=
  (citations.map (pack_need cpt)).sum

/-- The citations the truncation loop can ever include: those with
non-empty text (the loop `continue`s past empty texts). -/
def nonempty_text (citations : List Citation) : List Citation :=
  citations.filter (fun c => c.text ≠ "")

/-- Does the string end with the three-character ellipsis marker? -/
def ends_with_ellipsis (s : String) : Bool :=
  s.data.reverse.take 3 = ['.', '.', '.']

/-- The style keys recognised by the `build_prompt` dispatch. -/
def recognized_style_keys : List String :=
  ["base", "audit-bullets", "concise", "qa", "compare", "table", "json", "mitre-card"]

/-- Example KNN hit list (id `a`). -/
def ex_knn : List OSHit := [⟨"a", "ta", []⟩]

/-- Example BM25 hit list (id `b`). -/
def ex_bm25 : List OSHit := [⟨"b", "tb", []⟩]

/-- Example KNN hit list for the conflict scenario: id `a` with vector text. -/
def ex_knn_v : List OSHit := [⟨"a", "vec", [("m", "1")]⟩]

/-- Example BM25 hit list for the conflict scenario: id `a` with lexical text. -/
def ex_bm25_v : List OSHit := [⟨"a", "lex", []⟩]

/-- Example citation with a URL in its metadata. -/
def ex_c7 : Citation := ⟨some "doc1", none, "hello", [("url", "http://x")]⟩

/-- Small settings used for concrete prompt evaluation. -/
def ex_settings_small : RagSettings := { system_prompt_base := "B", system_prompt_strict := "S" }

/-- A citation with empty text. -/
def ex_c_empty : Citation := ⟨none, none, "", []⟩

/-- A short plain citation. -/
def ex_c6 : Citation := ⟨none, none, "hello", []⟩

/-- A retriever whose searches return nothing. -/
def ex_ret_empty : Retriever := ⟨fun _ _ => [], none⟩

/-- A generator that succeeds with a fixed answer. -/
def ex_gen_ok : GeneratorFn := fun _ _ => Except.ok "GENERATED"

/-- A plain example request. -/
def ex_req : RagRequest := ⟨"What is X?", 3, none, none, none, none, none⟩

/-- A single "hello" retrieval hit. -/
def ex_hit : RawHit := ⟨some "1", some 1, "hello", []⟩

/-- A retriever returning just `ex_hit`. -/
def ex_ret_one : Retriever := ⟨fun _ _ => [ex_hit], none⟩

/-- A generator that always raises. -/
def ex_gen_err : GeneratorFn := fun _ _ => Except.error "boom"

/-- Duplicate-text hit whose score fails the threshold. -/
def ex_hitA : RawHit := ⟨some "1", some (1/10), "dup", []⟩

/-- Duplicate-text hit whose score passes the threshold. -/
def ex_hitB : RawHit := ⟨some "2", some (9/10), "dup", []⟩

/-- Settings with a score threshold of 1/2. -/
def ex_settings_min : RagSettings := { min_score := some (1/2) }

/-- Two small citations for the packing witness. -/
def ex_pack_cs : List Citation := [⟨none, some 1, "alpha", []⟩, ⟨none, some 1, "beta", []⟩]

/-- Right-nested `or`-chain over optional strings, as in
`meta.get("url") or meta.get("source") or meta.get("id") or c.id`
(the last element is kept raw, as Python's `or` returns it even if falsy). -/
def or_str_chain : List (Option String) → Option String
  | [] => none
  | [x] => x
  | x :: y :: rest => or_str x (or_str_chain (y :: rest))

/-! ### Helper lemmas -/

theorem str_ext {a b : String} (h : a.data = b.data) : a = b := by
  cases a
  cases b
  cases h
  rfl

theorem str_append_assoc (a b c : String) : a ++ b ++ c = a ++ (b ++ c) := by
  apply str_ext
  simp [String.data_append, List.append_assoc]

theorem str_append_ne_empty_right (a b : String) (h : b ≠ "") : a ++ b ≠ "" := by
  intro heq
  have hd : a.data ++ b.data = [] := by
    have hq := congrArg String.data heq
    rwa [String.data_append] at hq
  exact h (str_ext (List.append_eq_nil.mp hd).2)

theorem dedupe_go_sublist (citations : List Citation) :
    ∀ seen, (dedupe_go seen citations).Sublist citations := by
  induction citations with
  | nil => intro seen; simp [dedupe_go]
  | cons c rest ih =>
    intro seen
    rw [dedupe_go]
    by_cases h : hash_text c.text ∈ seen
    · rw [if_pos h]; exact (ih seen).cons c
    · rw [if_neg h]; exact (ih _).cons₂ c

theorem dedupe_go_mem_spec (citations : List Citation) :
    ∀ seen, ∀ c ∈ dedupe_go seen citations,
      hash_text c.text ∉ seen ∧
      ∃ i : ℕ, citations[i]? = some c ∧
        ∀ (j : ℕ) (c' : Citation), j < i → citations[j]? = some c' →
          hash_text c'.text ≠ hash_text c.text := by
  induction citations with
  | nil => intro seen c hc; simp [dedupe_go] at hc
  | cons a rest ih =>
    intro seen c hc
    rw [dedupe_go] at hc
    by_cases ha : hash_text a.text ∈ seen
    · rw [if_pos ha] at hc
      obtain ⟨hnot, i, hi, hfirst⟩ := ih seen c hc
      refine ⟨hnot, i + 1, by rw [List.getElem?_cons_succ]; exact hi, ?_⟩
      intro j c' hj hj'
      cases j with
      | zero =>
        rw [List.getElem?_cons_zero] at hj'
        cases Option.some.inj hj'
        intro hh
        exact hnot (hh ▸ ha)
      | succ k =>
        rw [List.getElem?_cons_succ] at hj'
        exact hfirst k c' (by omega) hj'
    · rw [if_neg ha] at hc
      rcases List.mem_cons.mp hc with rfl | hc
      · exact ⟨ha, 0, List.getElem?_cons_zero, fun j c' hj _ => absurd hj (Nat.not_lt_zero j)⟩
      · obtain ⟨hnot, i, hi, hfirst⟩ := ih _ c hc
        have hne : hash_text c.text ≠ hash_text a.text := by
          intro hh
          exact hnot (by rw [hh]; exact List.mem_cons_self _ _)
        refine ⟨fun hmem => hnot (List.mem_cons_of_mem _ hmem), i + 1,
          by rw [List.getElem?_cons_succ]; exact hi, ?_⟩
        intro j c' hj hj'
        cases j with
        | zero =>
          rw [List.getElem?_cons_zero] at hj'
          cases Option.some.inj hj'
          exact fun hh => hne hh.symm
        | succ k =>
          rw [List.getElem?_cons_succ] at hj'
          exact hfirst k c' (by omega) hj'

theorem dedupe_go_hashes_nodup (citations : List Citation) :
    ∀ seen, ((dedupe_go seen citations).map (fun c => hash_text c.text)).Nodup := by
  induction citations with
  | nil => intro seen; simp [dedupe_go]
  | cons a rest ih =>
    intro seen
    rw [dedupe_go]
    by_cases ha : hash_text a.text ∈ seen
    · rw [if_pos ha]; exact ih seen
    · rw [if_neg ha]
      rw [List.map_cons, List.nodup_cons]
      refine ⟨?_, ih _⟩
      intro hmem
      obtain ⟨c, hc, hhc⟩ := List.mem_map.mp hmem
      have hns := (dedupe_go_mem_spec rest _ c hc).1
      exact hns (by rw [hhc]; exact List.mem_cons_self _ _)

theorem dedupe_go_complete (citations : List Citation) :
    ∀ seen, ∀ c ∈ citations,
      hash_text c.text ∈ seen ∨
      hash_text c.text ∈ (dedupe_go seen citations).map (fun c => hash_text c.text) := by
  induction citations with
  | nil => intro seen c hc; simp at hc
  | cons a rest ih =>
    intro seen c hc
    rw [dedupe_go]
    by_cases ha : hash_text a.text ∈ seen
    · rw [if_pos ha]
      rcases List.mem_cons.mp hc with rfl | hc
      · exact Or.inl ha
      · exact ih seen c hc
    · rw [if_neg ha]
      rcases List.mem_cons.mp hc with rfl | hc
      · exact Or.inr (by simp)
      · rcases ih (hash_text a.text :: seen) c hc with h | h
        · rcases List.mem_cons.mp h with heq | h
          · exact Or.inr (by simp [heq])
          · exact Or.inl h
        · exact Or.inr (by simp [h])

theorem first_occ_unique {citations : List Citation} {i i' : ℕ} {c c' : Citation}
    (hi : citations[i]? = some c) (hi' : citations[i']? = some c')
    (hh : hash_text c.text = hash_text c'.text)
    (hf : ∀ (j : ℕ) (c'' : Citation), j < i → citations[j]? = some c'' →
      hash_text c''.text ≠ hash_text c.text)
    (hf' : ∀ (j : ℕ) (c'' : Citation), j < i' → citations[j]? = some c'' →
      hash_text c''.text ≠ hash_text c'.text) :
    c = c' := by
  rcases lt_trichotomy i i' with h | h | h
  · exact absurd hh (hf' i c h hi)
  · subst h
    rw [hi] at hi'
    exact Option.some.inj hi'
  · exact absurd hh.symm (hf i' c' h hi')

theorem total_need_reverse (cpt : ℚ) (l : List Citation) :
    total_need cpt l.reverse = total_need cpt l := by
  simp [total_need, List.map_reverse, List.sum_reverse]

theorem total_need_cons (cpt : ℚ) (c : Citation) (l : List Citation) :
    total_need cpt (c :: l) = pack_need cpt c + total_need cpt l := by
  simp [total_need]

theorem pack_go_spec (cpt : ℚ) (maxT : ℤ) :
    ∀ (cs acc : List Citation) (used : ℤ),
      used = total_need cpt acc.reverse → used < maxT →
      ((acc ≠ [] ∨ cs ≠ []) → pack_go cpt maxT cs acc used ≠ []) ∧
      (2 ≤ (pack_go cpt maxT cs acc used).length →
        total_need cpt (pack_go cpt maxT cs acc used) ≤ maxT) := by
  intro cs
  induction cs with
  | nil =>
    intro acc used hused hlt
    rw [pack_go]
    constructor
    · rintro (h | h)
      · simpa using h
      · exact absurd rfl h
    · intro _
      rw [total_need_reverse]
      rw [total_need_reverse] at hused
      omega
  | cons c rest ih =>
    intro acc used hused hlt
    rw [pack_go]
    by_cases h1 : acc ≠ [] ∧ maxT < used + pack_need cpt c
    · rw [if_pos h1]
      refine ⟨fun _ => by simpa using h1.1, fun _ => ?_⟩
      rw [total_need_reverse]
      rw [total_need_reverse] at hused
      omega
    · rw [if_neg h1]
      by_cases h2 : maxT ≤ used + pack_need cpt c
      · rw [if_pos h2]
        refine ⟨fun _ => by simp, fun hlen => ?_⟩
        have hacc : acc ≠ [] := by
          intro hnil
          subst hnil
          simp at hlen
        have hle : used + pack_need cpt c ≤ maxT := by
          rcases not_and_or.mp h1 with h | h
          · exact absurd hacc h
          · omega
        rw [total_need_reverse, total_need_cons]
        rw [total_need_reverse] at hused
        omega
      · rw [if_neg h2]
        have hrec := ih (c :: acc) (used + pack_need cpt c)
          (by rw [total_need_reverse, total_need_cons]; rw [total_need_reverse] at hused; omega)
          (by omega)
        exact ⟨fun _ => hrec.1 (Or.inl (by simp)), hrec.2⟩

theorem str_length_append (a b : String) : (a ++ b).length = a.length + b.length := by
  show (a ++ b).data.length = a.data.length + b.data.length
  rw [String.data_append, List.length_append]

theorem rstrip_str_length_le (s : String) : (rstrip_str s).length ≤ s.length := by
  show (rstrip_list s.data).length ≤ s.data.length
  unfold rstrip_list
  calc ((s.data.reverse.dropWhile is_ws).reverse).length
      = (s.data.reverse.dropWhile is_ws).length := List.length_reverse _
    _ ≤ s.data.reverse.length := (List.dropWhile_sublist _).length_le
    _ = s.data.length := List.length_reverse _

theorem take_str_length_le (s : String) (n : ℕ) : (take_str s n).length ≤ n := by
  show (s.data.take n).length ≤ n
  rw [List.length_take]
  exact min_le_left _ _

theorem total_text_len_nil : total_text_len [] = 0 := rfl

theorem total_text_len_cons (c : Citation) (l : List Citation) :
    total_text_len (c :: l) = (c.text.length : ℤ) + total_text_len l := by
  simp [total_text_len]

theorem clip_citation_len_le (c : Citation) (r : ℤ) (h3 : 3 ≤ r) :
    ((clip_citation c r).text.length : ℤ) ≤ r := by
  have h1 : (clip_citation c r).text.length =
      (rstrip_str (take_str c.text (r - 3).toNat)).length + 3 := by
    simp only [clip_citation, str_length_append]
    rfl
  have h2 : (rstrip_str (take_str c.text (r - 3).toNat)).length ≤ (r - 3).toNat :=
    le_trans (rstrip_str_length_le _) (take_str_length_le _ _)
  have h4 : ((r - 3).toNat : ℤ) = r - 3 := Int.toNat_of_nonneg (by omega)
  omega

theorem ends_with_ellipsis_append (s : String) :
    ends_with_ellipsis (s ++ "...") = true := by
  simp [ends_with_ellipsis, String.data_append, List.reverse_append]

theorem clip_citation_ellipsis (c : Citation) (r : ℤ) :
    ends_with_ellipsis (clip_citation c r).text = true := by
  unfold clip_citation
  exact ends_with_ellipsis_append _

theorem nonempty_text_cons_pos (c : Citation) (rest : List Citation) (h : c.text ≠ "") :
    nonempty_text (c :: rest) = c :: nonempty_text rest := by
  simp [nonempty_text, List.filter_cons, h]

theorem nonempty_text_cons_neg (c : Citation) (rest : List Citation) (h : c.text = "") :
    nonempty_text (c :: rest) = nonempty_text rest := by
  simp [nonempty_text, List.filter_cons, h]

theorem trunc_go_spec (m : ℤ) :
    ∀ (cs : List Citation) (total : ℤ), total ≤ m →
      total_text_len (trunc_go m cs total) ≤ m - total ∧
      ∃ j : ℕ,
        trunc_go m cs total = (nonempty_text cs).take j ∨
        ∃ hj : j < (nonempty_text cs).length,
          trunc_go m cs total =
            (nonempty_text cs).take j ++
              [clip_citation ((nonempty_text cs).get ⟨j, hj⟩)
                (m - total - total_text_len ((nonempty_text cs).take j))] ∧
          ((clip_citation ((nonempty_text cs).get ⟨j, hj⟩)
              (m - total - total_text_len ((nonempty_text cs).take j))).text.length : ℤ) <
            (((nonempty_text cs).get ⟨j, hj⟩).text.length : ℤ) ∧
          ends_with_ellipsis ((clip_citation ((nonempty_text cs).get ⟨j, hj⟩)
              (m - total - total_text_len ((nonempty_text cs).take j))).text) = true := by
  intro cs
  induction cs with
  | nil =>
    intro total htm
    rw [trunc_go]
    refine ⟨by rw [total_text_len_nil]; omega, 0, Or.inl ?_⟩
    simp [nonempty_text]
  | cons c rest ih =>
    intro total htm
    rw [trunc_go]
    by_cases hempty : c.text = ""
    · rw [if_pos hempty, nonempty_text_cons_neg c rest hempty]
      exact ih total htm
    · rw [if_neg hempty, nonempty_text_cons_pos c rest hempty]
      by_cases hfits : total + (c.text.length : ℤ) ≤ m
      · rw [if_pos hfits]
        obtain ⟨hlen, j, hj⟩ := ih (total + (c.text.length : ℤ)) hfits
        refine ⟨by rw [total_text_len_cons]; omega, j + 1, ?_⟩
        rcases hj with hj | ⟨hjlt, heq, hshort, hell⟩
        · left
          rw [List.take_succ_cons, hj]
        · right
          have hjlt' : j + 1 < (c :: nonempty_text rest).length := by
            simp only [List.length_cons]
            omega
          refine ⟨hjlt', ?_, ?_, ?_⟩
          · rw [List.take_succ_cons, List.get_cons_succ,
              show m - total - total_text_len (c :: (nonempty_text rest).take j) =
                m - (total + (c.text.length : ℤ)) -
                  total_text_len ((nonempty_text rest).take j) by
                rw [total_text_len_cons]; ring]
            rw [heq]
            simp [List.cons_append]
          · rw [List.take_succ_cons, List.get_cons_succ,
              show m - total - total_text_len (c :: (nonempty_text rest).take j) =
                m - (total + (c.text.length : ℤ)) -
                  total_text_len ((nonempty_text rest).take j) by
                rw [total_text_len_cons]; ring]
            exact hshort
          · rw [List.take_succ_cons, List.get_cons_succ,
              show m - total - total_text_len (c :: (nonempty_text rest).take j) =
                m - (total + (c.text.length : ℤ)) -
                  total_text_len ((nonempty_text rest).take j) by
                rw [total_text_len_cons]; ring]
            exact hell
      · rw [if_neg hfits]
        by_cases hbig : 50 < m - total
        · rw [if_pos hbig]
          have hclip : ((clip_citation c (m - total)).text.length : ℤ) ≤ m - total :=
            clip_citation_len_le c (m - total) (by omega)
          constructor
          · rw [total_text_len_cons, total_text_len_nil]
            omega
          · refine ⟨0, Or.inr ⟨by simp, ?_, ?_, ?_⟩⟩
            · simp only [List.take_zero, total_text_len_nil, sub_zero, List.nil_append]
              rfl
            · simp only [List.take_zero, total_text_len_nil, sub_zero]
              show ((clip_citation c (m - total)).text.length : ℤ) < (c.text.length : ℤ)
              omega
            · exact clip_citation_ellipsis _ _
        · rw [if_neg hbig]
          exact ⟨by rw [total_text_len_nil]; omega, 0, Or.inl (by simp)⟩

theorem rank_go_isSome (id : String) (hits : List OSHit) :
    ∀ n, (rank_go id n hits).isSome = true ↔ ∃ h ∈ hits, h.hid = id := by
  induction hits with
  | nil => intro n; simp [rank_go]
  | cons a rest ih =>
    intro n
    rw [rank_go]
    cases hrec : rank_go id (n + 1) rest with
    | some r =>
      simp only [Option.isSome_some, true_iff]
      obtain ⟨h, hh, hhid⟩ := (ih (n + 1)).mp (by rw [hrec]; rfl)
      exact ⟨h, List.mem_cons_of_mem _ hh, hhid⟩
    | none =>
      by_cases ha : a.hid = id
      · rw [if_pos ha]
        simp only [Option.isSome_some, true_iff]
        exact ⟨a, List.mem_cons_self _ _, ha⟩
      · rw [if_neg ha]
        simp only [Option.isSome_none, Bool.false_eq_true, false_iff]
        rintro ⟨h, hh, hhid⟩
        rcases List.mem_cons.mp hh with rfl | hh
        · exact ha hhid
        · have hsome := (ih (n + 1)).mpr ⟨h, hh, hhid⟩
          rw [hrec] at hsome
          simp at hsome

theorem to_rank_map_isSome (hits : List OSHit) (id : String) :
    (to_rank_map hits id).isSome = true ↔ (id ≠ "" ∧ ∃ h ∈ hits, h.hid = id) := by
  unfold to_rank_map
  by_cases hid : id = ""
  · simp [hid]
  · rw [if_neg hid, rank_go_isSome]
    simp [hid]

theorem mem_union_ids (knn bm25 : List OSHit) (id : String) :
    id ∈ union_ids knn bm25 ↔
      ((to_rank_map knn id).isSome = true ∨ (to_rank_map bm25 id).isSome = true) := by
  rw [union_ids, List.mem_dedup, List.mem_filter, to_rank_map_isSome, to_rank_map_isSome]
  simp only [List.mem_map, List.mem_append, decide_eq_true_eq]
  constructor
  · rintro ⟨⟨h, hmem, hhid⟩, hne⟩
    rcases hmem with hk | hb
    · exact Or.inl ⟨hne, h, hk, hhid⟩
    · exact Or.inr ⟨hne, h, hb, hhid⟩
  · rintro (⟨hne, h, hk, hhid⟩ | ⟨hne, h, hb, hhid⟩)
    · exact ⟨⟨h, Or.inl hk, hhid⟩, hne⟩
    · exact ⟨⟨h, Or.inr hb, hhid⟩, hne⟩

theorem src_by_id_append_right (knn bm25 : List OSHit) (id : String)
    (h : ∃ b ∈ bm25, b.hid = id) :
    src_by_id (knn ++ bm25) id = src_by_id bm25 id := by
  unfold src_by_id
  rw [List.filter_append, List.getLast?_append]
  have hne : bm25.filter (fun h => h.hid = id) ≠ [] := by
    obtain ⟨b, hb, hhid⟩ := h
    intro hnil
    rw [List.filter_eq_nil_iff] at hnil
    exact hnil b hb (by simp [hhid])
  obtain ⟨x, hx⟩ := Option.ne_none_iff_exists'.mp (mt List.getLast?_eq_none_iff.mp hne)
  rw [hx]
  rfl

theorem src_by_id_append_left (knn bm25 : List OSHit) (id : String)
    (h : ∀ b ∈ bm25, b.hid ≠ id) :
    src_by_id (knn ++ bm25) id = src_by_id knn id := by
  unfold src_by_id
  rw [List.filter_append]
  have hnil : bm25.filter (fun h => h.hid = id) = [] :=
    List.filter_eq_nil_iff.mpr (fun b hb => by simp [h b hb])
  rw [hnil, List.append_nil]

theorem or_str_chain_render : ∀ l : List (Option String),
    (match or_str_chain l with
     | some s => if s = "" then "" else "\nFonte: " ++ s
     | none => "") =
    source_line ((l.filterMap (fun x => x)).find? (fun s => s ≠ "")) := by
  intro l
  induction l with
  | nil => rfl
  | cons x rest ih =>
    cases rest with
    | nil =>
      cases x with
      | none => rfl
      | some s =>
        by_cases hs : s = ""
        · subst hs
          simp [or_str_chain, source_line, List.filterMap, List.find?]
        · simp [or_str_chain, source_line, List.filterMap, List.find?, hs]
    | cons y rest2 =>
      cases x with
      | none =>
        show (match or_str_chain (y :: rest2) with
          | some s => if s = "" then "" else "\nFonte: " ++ s
          | none => "") = _
        rw [ih]
        simp [List.filterMap]
      | some s =>
        have hch : or_str_chain (some s :: y :: rest2) =
            if s = "" then or_str_chain (y :: rest2) else some s := rfl
        by_cases hs : s = ""
        · rw [hch, if_pos hs]
          rw [ih]
          subst hs
          simp [List.filterMap_cons, List.find?]
        · rw [hch, if_neg hs]
          simp [List.filterMap_cons, List.find?, hs, source_line]

theorem meta_line_eq_spec (c : Citation) : meta_line c = source_line (spec_source_field c) := by
  unfold meta_line spec_source_field
  by_cases hm : c.meta = []
  · rw [if_pos hm, if_pos hm]
    rfl
  · rw [if_neg hm, if_neg hm]
    exact or_str_chain_render
      [meta_get c.meta "url", meta_get c.meta "source", meta_get c.meta "id", c.id]

theorem context_entries_getElem (cs : List Citation) (n : ℕ) (c : Citation)
    (h : cs[n]? = some c) :
    (context_entries cs)[n]? =
      some ("[" ++ toString (n + 1) ++ "] " ++ c.text ++ source_line (spec_source_field c)) := by
  unfold context_entries
  rw [List.getElem?_map, List.getElem?_enum, h]
  simp [meta_line_eq_spec]

theorem base_entries_getElem (cs : List Citation) (n : ℕ) (c : Citation)
    (h : cs[n]? = some c) :
    (base_entries cs)[n]? = some ("[" ++ toString (n + 1) ++ "] " ++ c.text) := by
  unfold base_entries
  rw [List.getElem?_map, List.getElem?_enum, h]
  simp

theorem ensure_tag_note_cases (s : RagSettings) (citations : List Citation) (answer : String) :
    ensure_tag_note s citations answer = answer ∨
    ensure_tag_note s citations answer =
      answer ++ "\n\nObservação: inclua referências [n] na próxima resposta." := by
  unfold ensure_tag_note
  split
  · exact Or.inr rfl
  · exact Or.inl rfl

/-! ### Claim theorems -/

/-- C3: whenever the citations surviving budgeting number fewer than
`min_citations_to_answer` and short-circuiting is enabled, `ask` returns
the fallback answer with exactly the surviving citations, and its result
does not depend on the generator (the Generator is never invoked). -/
theorem ask_short_circuit_fallback (ret : Retriever) (gen : GeneratorFn) (s : RagSettings)
    (req : RagRequest)
    (hlt : ((surviving_citations s req (retrieve_hits ret req)).length : ℤ) <
      s.min_citations_to_answer)
    (hsc : s.short_circuit_on_empty = true) :
    ask ret gen s req =
      ⟨s.fallback_answer, surviving_citations s req (retrieve_hits ret req)⟩ ∧
    ∀ gen2 : GeneratorFn, ask ret gen2 s req = ask ret gen s req := by
  have key : ∀ g : GeneratorFn,
      ask ret g s req =
        ⟨s.fallback_answer, surviving_citations s req (retrieve_hits ret req)⟩ := by
    intro g
    unfold ask
    rw [if_pos ⟨hlt, hsc⟩]
  exact ⟨key gen, fun gen2 => (key gen2).trans (key gen).symm⟩

/-- Witness for C3: zero retrieval hits, `min_citations_to_answer = 1`,
short-circuit enabled — the response is exactly the fallback answer with an
empty citation list. -/
theorem ask_short_circuit_fallback_witness :
    ask ex_ret_empty ex_gen_ok {} ex_req = ⟨(({} : RagSettings)).fallback_answer, []⟩ := by
  have h := (ask_short_circuit_fallback ex_ret_empty ex_gen_ok {} ex_req
    (by with_unfolding_all decide) rfl).1
  rw [h]
  with_unfolding_all decide

/-- C4: if the short-circuit does not fire and the generator raises, `ask`
does not propagate: the answer starts with the configured fallback answer,
embeds the error detail, and the citations are exactly those that survived
budgeting. -/
theorem ask_generator_failure_fallback (ret : Retriever) (gen : GeneratorFn)
    (s : RagSettings) (req : RagRequest) (e : String)
    (hnsc : ¬(((surviving_citations s req (retrieve_hits ret req)).length : ℤ) <
      s.min_citations_to_answer ∧ s.short_circuit_on_empty = true))
    (herr : gen (build_prompt req.question (surviving_citations s req (retrieve_hits ret req))
        s req.style) (answer_max_int req) = Except.error e) :
    (∃ rest, (ask ret gen s req).answer = s.fallback_answer ++ rest) ∧
    (∃ pre post, (ask ret gen s req).answer = pre ++ e ++ post) ∧
    (ask ret gen s req).citations = surviving_citations s req (retrieve_hits ret req) := by
  have hask : ask ret gen s req =
      ask_generate gen s req (surviving_citations s req (retrieve_hits ret req)) := by
    unfold ask
    rw [if_neg hnsc]
  have hraw : ask_generate gen s req (surviving_citations s req (retrieve_hits ret req)) =
      ⟨guard_answer s (surviving_citations s req (retrieve_hits ret req))
        (s.fallback_answer ++ " (erro do gerador: " ++ e ++ ")"),
       surviving_citations s req (retrieve_hits ret req)⟩ := by
    unfold ask_generate
    rw [herr]
  have hne : (s.fallback_answer ++ " (erro do gerador: " ++ e ++ ")") ≠ "" :=
    str_append_ne_empty_right _ _ (by decide)
  have hg : guard_answer s (surviving_citations s req (retrieve_hits ret req))
        (s.fallback_answer ++ " (erro do gerador: " ++ e ++ ")") =
      ensure_tag_note s (surviving_citations s req (retrieve_hits ret req))
        (s.fallback_answer ++ " (erro do gerador: " ++ e ++ ")") := by
    unfold guard_answer
    rw [if_neg hne]
  rw [hask, hraw, hg]
  rcases ensure_tag_note_cases s (surviving_citations s req (retrieve_hits ret req))
      (s.fallback_answer ++ " (erro do gerador: " ++ e ++ ")") with ht | ht <;> rw [ht]
  · refine ⟨⟨" (erro do gerador: " ++ e ++ ")", ?_⟩,
      ⟨s.fallback_answer ++ " (erro do gerador: ", ")", rfl⟩, rfl⟩
    show s.fallback_answer ++ " (erro do gerador: " ++ e ++ ")" =
      s.fallback_answer ++ (" (erro do gerador: " ++ e ++ ")")
    simp only [str_append_assoc]
  · refine ⟨⟨" (erro do gerador: " ++ e ++ ")" ++
        "\n\nObservação: inclua referências [n] na próxima resposta.", ?_⟩,
      ⟨s.fallback_answer ++ " (erro do gerador: ",
        ")" ++ "\n\nObservação: inclua referências [n] na próxima resposta.", ?_⟩, rfl⟩
    · show s.fallback_answer ++ " (erro do gerador: " ++ e ++ ")" ++
          "\n\nObservação: inclua referências [n] na próxima resposta." = _
      simp only [str_append_assoc]
    · show s.fallback_answer ++ " (erro do gerador: " ++ e ++ ")" ++
          "\n\nObservação: inclua referências [n] na próxima resposta." = _
      simp only [str_append_assoc]

/-- Witness for C4: one "hello" hit, a generator raising "boom" — the
citations field still reflects the budgeted set. -/
theorem ask_generator_failure_fallback_witness :
    (ask ex_ret_one ex_gen_err ex_settings_small ex_req).citations =
      surviving_citations ex_settings_small ex_req (retrieve_hits ex_ret_one ex_req) :=
  (ask_generator_failure_fallback ex_ret_one ex_gen_err ex_settings_small ex_req "boom"
    (by with_unfolding_all decide) rfl).2.2

/-- C5: with a positive token budget, packing keeps at least one citation
whenever the input is non-empty, and whenever more than one citation is
returned the total estimated tokens (with the 8-token margin per citation)
do not exceed the budget. -/
theorem pack_budget_bounds (citations : List Citation) (maxT : ℤ) (cpt : ℚ) (h : 0 < maxT) :
    (citations ≠ [] → pack_by_token_budget citations maxT cpt ≠ []) ∧
    (2 ≤ (pack_by_token_budget citations maxT cpt).length →
      total_need cpt (pack_by_token_budget citations maxT cpt) ≤ maxT) := by
  unfold pack_by_token_budget
  rw [if_neg (by omega : ¬maxT ≤ 0)]
  cases citations with
  | nil =>
    rw [if_neg (by simp)]
    constructor
    · intro hne
      exact absurd rfl hne
    · intro hlen
      rw [pack_go] at hlen
      simp at hlen
  | cons c rest =>
    have hspec := pack_go_spec cpt maxT (c :: rest) [] 0 (by simp [total_need]) h
    have hne := hspec.1 (Or.inr (by simp))
    rw [if_neg (by simp [hne])]
    exact ⟨fun _ => hne, hspec.2⟩

/-- Witness for C5 at a concrete two-citation list and budget 1000. -/
theorem pack_budget_bounds_witness :
    (ex_pack_cs ≠ [] → pack_by_token_budget ex_pack_cs 1000 4 ≠ []) ∧
    (2 ≤ (pack_by_token_budget ex_pack_cs 1000 4).length →
      total_need 4 (pack_by_token_budget ex_pack_cs 1000 4) ≤ 1000) :=
  pack_budget_bounds ex_pack_cs 1000 4 (by decide)

/-- C6 (amended): with a positive character budget, the truncated list's
total text length never exceeds the budget, and the output is a prefix of
the input's non-empty-text citations, unchanged, possibly followed by one
clipped citation whose text is strictly shorter than the original and ends
with the ellipsis marker.  (Citations with empty text are dropped, which
is what forces the amendment.) -/
theorem truncate_char_budget_spec (citations : List Citation) (m : ℤ) (hm : 0 < m) :
    total_text_len (truncate_by_char_budget citations (some m)) ≤ m ∧
    ∃ j : ℕ,
      truncate_by_char_budget citations (some m) = (nonempty_text citations).take j ∨
      ∃ hj : j < (nonempty_text citations).length,
        truncate_by_char_budget citations (some m) =
          (nonempty_text citations).take j ++
            [clip_citation ((nonempty_text citations).get ⟨j, hj⟩)
              (m - total_text_len ((nonempty_text citations).take j))] ∧
        ((clip_citation ((nonempty_text citations).get ⟨j, hj⟩)
            (m - total_text_len ((nonempty_text citations).take j))).text.length : ℤ) <
          (((nonempty_text citations).get ⟨j, hj⟩).text.length : ℤ) ∧
        ends_with_ellipsis ((clip_citation ((nonempty_text citations).get ⟨j, hj⟩)
            (m - total_text_len ((nonempty_text citations).take j))).text) = true := by
  have hdef : truncate_by_char_budget citations (some m) = trunc_go m citations 0 := by
    show (if m ≤ 0 then citations else trunc_go m citations 0) = trunc_go m citations 0
    rw [if_neg (by omega)]
  obtain ⟨h1, j, hj⟩ := trunc_go_spec m citations 0 (by omega)
  rw [hdef]
  simp only [sub_zero] at h1 hj
  exact ⟨by omega, j, hj⟩

/-- Witness for C6: a single short citation fits and the budget holds. -/
theorem truncate_char_budget_spec_witness :
    total_text_len (truncate_by_char_budget [ex_c6] (some 100)) ≤ 100 :=
  (truncate_char_budget_spec [ex_c6] 100 (by decide)).1

/-- Counterexample for C6 as stated: a citation with empty text fits any
positive budget (total length 0 ≤ 100) and nothing is clipped, so the
claim requires it back unchanged; the code drops it. -/
theorem truncate_drops_empty_text_cex :
    truncate_by_char_budget [ex_c_empty] (some 100) = [] ∧
    truncate_by_char_budget [ex_c_empty] (some 100) ≠ [ex_c_empty] := by
  exact ⟨by decide, by decide⟩

/-- C9: curation drops hits with empty text, and deduplication keeps only
the first occurrence of each normalized-text hash while preserving input
order: output length never exceeds input length, the output is an
order-preserving subsequence, no two outputs share a hash, every input
hash survives, and every kept citation is the first of its hash. -/
theorem curate_dedupe_spec (hits : List RawHit) :
    (dedupe_citations (citations_of_hits hits)).length ≤ hits.length ∧
    (dedupe_citations (citations_of_hits hits)).Sublist (citations_of_hits hits) ∧
    ((dedupe_citations (citations_of_hits hits)).map (fun c => hash_text c.text)).Nodup ∧
    (∀ c ∈ citations_of_hits hits,
      hash_text c.text ∈
        (dedupe_citations (citations_of_hits hits)).map (fun c => hash_text c.text)) ∧
    (∀ c ∈ dedupe_citations (citations_of_hits hits),
      ∃ i : ℕ, (citations_of_hits hits)[i]? = some c ∧
        ∀ (j : ℕ) (c' : Citation), j < i → (citations_of_hits hits)[j]? = some c' →
          hash_text c'.text ≠ hash_text c.text) ∧
    (∀ (h : RawHit) (rest : List RawHit), h.text = "" →
      citations_of_hits (h :: rest) = citations_of_hits rest) := by
  have hsub := dedupe_go_sublist (citations_of_hits hits) []
  refine ⟨?_, hsub, dedupe_go_hashes_nodup _ [], ?_, ?_, ?_⟩
  · calc (dedupe_citations (citations_of_hits hits)).length
        ≤ (citations_of_hits hits).length := hsub.length_le
      _ ≤ hits.length := by
        unfold citations_of_hits
        rw [List.length_map]
        exact List.length_filter_le _ _
  · intro c hc
    rcases dedupe_go_complete (citations_of_hits hits) [] c hc with h | h
    · simp at h
    · exact h
  · intro c hc
    exact (dedupe_go_mem_spec _ [] c hc).2
  · intro h rest hempty
    unfold citations_of_hits
    rw [List.filter_cons]
    simp [hempty]

/-- Witness for C9 at a concrete two-hit list with duplicate texts. -/
theorem curate_dedupe_spec_witness :
    (dedupe_citations (citations_of_hits [ex_hitA, ex_hitB])).length ≤
      ([ex_hitA, ex_hitB] : List RawHit).length :=
  (curate_dedupe_spec [ex_hitA, ex_hitB]).1

/-- C10: in `ask`'s curation, dedupe runs before the score filter on the
unfiltered citation list, so when the first occurrence of a hash fails the
score threshold, that hash disappears from the curated set even if a later
duplicate would have passed. -/
theorem dedupe_before_score_filter (s : RagSettings) (hits : List RawHit) (m : ℚ)
    (i j : ℕ) (ci cj : Citation)
    (hd : s.dedupe = true) (hm : s.min_score = some m)
    (hci : (citations_of_hits hits)[i]? = some ci)
    (hcj : (citations_of_hits hits)[j]? = some cj)
    (hij : i < j)
    (hdup : hash_text ci.text = hash_text cj.text)
    (hfirst : ∀ (k : ℕ) (c' : Citation), k < i → (citations_of_hits hits)[k]? = some c' →
      hash_text c'.text ≠ hash_text ci.text)
    (hfail : ci.score = none ∨ ∃ sc, ci.score = some sc ∧ sc < m)
    (hpass : ∃ sc, cj.score = some sc ∧ m ≤ sc) :
    hash_text ci.text ∉ (curated_citations s hits).map (fun c => hash_text c.text) := by
  intro hmem
  obtain ⟨c, hcmem, hch⟩ := List.mem_map.mp hmem
  unfold curated_citations at hcmem
  rw [hd] at hcmem
  simp only [if_true] at hcmem
  rw [hm] at hcmem
  unfold apply_score_filter at hcmem
  rw [List.mem_filter] at hcmem
  obtain ⟨hcded, hcpred⟩ := hcmem
  obtain ⟨i', hi', hfirst'⟩ := (dedupe_go_mem_spec _ [] c hcded).2
  have hceq : c = ci := first_occ_unique hi' hci hch hfirst' hfirst
  subst hceq
  rcases hfail with hnone | ⟨sc, hsc, hlt⟩
  · rw [hnone] at hcpred
    simp at hcpred
  · rw [hsc] at hcpred
    simp only [decide_eq_true_eq] at hcpred
    exact absurd hcpred (not_le.mpr hlt)

/-- Witness for C10: two "dup" hits, the first scoring 1/10 below the 1/2
threshold; the text's hash is absent from the curated list. -/
theorem dedupe_before_score_filter_witness :
    hash_text "dup" ∉
      (curated_citations ex_settings_min [ex_hitA, ex_hitB]).map (fun c => hash_text c.text) :=
  dedupe_before_score_filter ex_settings_min [ex_hitA, ex_hitB] (1/2) 0 1
    ⟨some "1", some (1/10), "dup", []⟩ ⟨some "2", some (9/10), "dup", []⟩
    rfl rfl (by with_unfolding_all decide) (by with_unfolding_all decide) (by decide)
    rfl (fun k c' hk _ => absurd hk (Nat.not_lt_zero k))
    (Or.inr ⟨1/10, rfl, by with_unfolding_all decide⟩)
    ⟨9/10, rfl, by with_unfolding_all decide⟩

/-- C7 (amended): every rendered citation entry is the 1-based
`"[n] <text>"` line followed by a `Fonte:` source line chosen — only when
the meta mapping is non-empty — with priority meta `url`, meta `source`,
meta `id`, then citation id (omitted when no truthy value exists); the
default base template instead renders the plain `"[n] <text>"` lines with
no source line; every other template embeds the shared rendered block. -/
theorem prompt_citation_rendering :
    (∀ (cs : List Citation) (n : ℕ) (c : Citation), cs[n]? = some c →
      (context_entries cs)[n]? =
        some ("[" ++ toString (n + 1) ++ "] " ++ c.text ++ source_line (spec_source_field c))) ∧
    (∀ (cs : List Citation) (n : ℕ) (c : Citation), cs[n]? = some c →
      (base_entries cs)[n]? = some ("[" ++ toString (n + 1) ++ "] " ++ c.text)) ∧
    (∀ (q : String) (cs : List Citation) (s : RagSettings), cs ≠ [] →
      build_prompt_base q cs s =
        s.system_prompt_base ++ "\n# Pergunta\n" ++ q ++ "\n\n# Trechos\n" ++
          join_sep "\n\n" (base_entries cs) ++ "\n\n# Resposta:") ∧
    (∀ (q : String) (cs : List Citation) (s : RagSettings), cs ≠ [] →
      (∃ a b, build_prompt_audit_bullets q cs s = a ++ render_context_block cs ++ b) ∧
      (∃ a b, build_prompt_concise q cs s = a ++ render_context_block cs ++ b) ∧
      (∃ a b, build_prompt_qa q cs s = a ++ render_context_block cs ++ b) ∧
      (∃ a b, build_prompt_verdict q cs s = a ++ render_context_block cs ++ b) ∧
      (∃ a b, build_prompt_compare q cs s = a ++ render_context_block cs ++ b) ∧
      (∃ a b, build_prompt_table q cs s = a ++ render_context_block cs ++ b) ∧
      (∃ a b, build_prompt_json q cs s = a ++ render_context_block cs ++ b) ∧
      (∃ a b, build_prompt_procedure q cs s = a ++ render_context_block cs ++ b) ∧
      (∃ a b, build_prompt_exec_summary q cs s = a ++ render_context_block cs ++ b) ∧
      (∃ a b, build_prompt_mitre_card q cs s = a ++ render_context_block cs ++ b)) := by
  refine ⟨context_entries_getElem, base_entries_getElem, ?_, ?_⟩
  · intro q cs s h
    unfold build_prompt_base
    rw [if_neg h]
  · intro q cs s h
    refine ⟨?_, ?_, ?_, ?_, ?_, ?_, ?_, ?_, ?_, ?_⟩
    · unfold build_prompt_audit_bullets
      rw [if_neg h]
      exact ⟨_, _, rfl⟩
    · unfold build_prompt_concise
      rw [if_neg h]
      exact ⟨_, _, rfl⟩
    · unfold build_prompt_qa
      rw [if_neg h]
      exact ⟨_, _, rfl⟩
    · unfold build_prompt_verdict
      rw [if_neg h]
      exact ⟨_, _, rfl⟩
    · unfold build_prompt_compare
      rw [if_neg h]
      exact ⟨_, _, rfl⟩
    · unfold build_prompt_table
      rw [if_neg h]
      exact ⟨_, _, rfl⟩
    · unfold build_prompt_json
      rw [if_neg h]
      exact ⟨_, _, rfl⟩
    · unfold build_prompt_procedure
      rw [if_neg h]
      exact ⟨_, _, rfl⟩
    · unfold build_prompt_exec_summary
      rw [if_neg h]
      exact ⟨_, _, rfl⟩
    · unfold build_prompt_mitre_card
      rw [if_neg h]
      exact ⟨_, _, rfl⟩

/-- Witness for C7: the first rendered entry of a URL-bearing citation. -/
theorem prompt_citation_rendering_witness :
    (context_entries [ex_c7])[0]? =
      some ("[" ++ toString (0 + 1) ++ "] " ++ ex_c7.text ++
        source_line (spec_source_field ex_c7)) :=
  prompt_citation_rendering.1 [ex_c7] 0 ex_c7 List.getElem?_cons_zero

/-- Counterexample for C7 as stated: the base template renders a citation
that has an explicit URL with no source line at all, so it differs from
the base prompt built with the claim's source-annotated entries. -/
theorem base_prompt_no_source_line_cex :
    build_prompt_base "q" [ex_c7] ex_settings_small ≠
      claim_base_prompt "q" [ex_c7] ex_settings_small := by
  decide

/-- C8 (amended): the dispatch recognises exactly base, audit-bullets,
concise, qa, compare, table, json and mitre-card — each mapping to its own
scaffold, pairwise distinct at a concrete input — while verdict, procedure
and exec-summary (whose dispatch lines are commented out in the source),
like any unrecognised or absent style, resolve to the base template. -/
theorem prompt_style_dispatch :
    (∀ (q : String) (cs : List Citation) (s : RagSettings),
      build_prompt q cs s none = build_prompt_base q cs s ∧
      build_prompt q cs s (some "audit-bullets") = build_prompt_audit_bullets q cs s ∧
      build_prompt q cs s (some "concise") = build_prompt_concise q cs s ∧
      build_prompt q cs s (some "qa") = build_prompt_qa q cs s ∧
      build_prompt q cs s (some "compare") = build_prompt_compare q cs s ∧
      build_prompt q cs s (some "table") = build_prompt_table q cs s ∧
      build_prompt q cs s (some "json") = build_prompt_json q cs s ∧
      build_prompt q cs s (some "mitre-card") = build_prompt_mitre_card q cs s ∧
      build_prompt q cs s (some "verdict") = build_prompt_base q cs s ∧
      build_prompt q cs s (some "procedure") = build_prompt_base q cs s ∧
      build_prompt q cs s (some "exec-summary") = build_prompt_base q cs s) ∧
    (∀ (q : String) (cs : List Citation) (s : RagSettings) (sty : Option String),
      style_key sty ∉ recognized_style_keys →
      build_prompt q cs s sty = build_prompt_base q cs s) ∧
    List.Pairwise (fun a b => a ≠ b)
      [build_prompt_base "q" [ex_c7] ex_settings_small,
       build_prompt_audit_bullets "q" [ex_c7] ex_settings_small,
       build_prompt_concise "q" [ex_c7] ex_settings_small,
       build_prompt_qa "q" [ex_c7] ex_settings_small,
       build_prompt_compare "q" [ex_c7] ex_settings_small,
       build_prompt_table "q" [ex_c7] ex_settings_small,
       build_prompt_json "q" [ex_c7] ex_settings_small,
       build_prompt_mitre_card "q" [ex_c7] ex_settings_small] := by
  refine ⟨?_, ?_, by decide⟩
  · intro q cs s
    exact ⟨rfl, rfl, rfl, rfl, rfl, rfl, rfl, rfl, rfl, rfl, rfl⟩
  · intro q cs s sty h
    simp only [recognized_style_keys, List.mem_cons, List.not_mem_nil, or_false,
      not_or] at h
    obtain ⟨h1, h2, h3, h4, h5, h6, h7, h8⟩ := h
    unfold build_prompt
    rw [if_neg h1, if_neg h2, if_neg h3, if_neg h4, if_neg h5, if_neg h6, if_neg h7, if_neg h8]

/-- Witness for C8: an unrecognised style resolves to the base template. -/
theorem prompt_style_dispatch_witness :
    build_prompt "q" [ex_c7] ex_settings_small (some "unknown-style") =
      build_prompt_base "q" [ex_c7] ex_settings_small :=
  prompt_style_dispatch.2.1 "q" [ex_c7] ex_settings_small (some "unknown-style") (by decide)

/-- Counterexample for C8 as stated: the verdict style does not select the
verdict scaffold — its dispatch line is commented out, so it falls back to
the base template. -/
theorem verdict_style_falls_back_cex :
    build_prompt "q" [ex_c7] ex_settings_small (some "verdict") =
      build_prompt_base "q" [ex_c7] ex_settings_small ∧
    build_prompt "q" [ex_c7] ex_settings_small (some "verdict") ≠
      build_prompt_verdict "q" [ex_c7] ex_settings_small := by
  exact ⟨by decide, by decide⟩

/-- C1 (amended): for every valid enumeration of the fused id set (Python
iterates the set in an unspecified order), every fused pair carries the
RRF score `Σ 1/(60 + rank)` over the lists containing the id, the output
ids are exactly those appearing (with a truthy id) in at least one input
list, and the result is sorted by descending fused score.  Tie order is
inherited from the unspecified set order, not from first-seen order. -/
theorem rrf_fusion_scores_sorted (knn bm25 : List OSHit) (idsEnum : List String)
    (henum : ValidIdsEnum idsEnum knn bm25) :
    (∀ p ∈ fused_sorted idsEnum knn bm25, p.2 = claim_rrf_score knn bm25 p.1) ∧
    ((fused_sorted idsEnum knn bm25).map (fun p => p.1)).Perm (union_ids knn bm25) ∧
    (∀ id : String, id ∈ union_ids knn bm25 ↔
      ((to_rank_map knn id).isSome = true ∨ (to_rank_map bm25 id).isSome = true)) ∧
    (fused_sorted idsEnum knn bm25).Pairwise (fun a b => b.2 ≤ a.2) := by
  have hperm : (fused_sorted idsEnum knn bm25).Perm (fused_pairs idsEnum knn bm25) :=
    List.perm_insertionSort _ _
  refine ⟨?_, ?_, fun id => mem_union_ids knn bm25 id, ?_⟩
  · intro p hp
    have hp' : p ∈ fused_pairs idsEnum knn bm25 := hperm.mem_iff.mp hp
    obtain ⟨id, hid, rfl⟩ := List.mem_map.mp hp'
    show rrf_contrib (to_rank_map knn id) + rrf_contrib (to_rank_map bm25 id) =
      claim_rrf_score knn bm25 id
    cases hk : to_rank_map knn id <;> cases hb : to_rank_map bm25 id <;>
      simp [claim_rrf_score, rrf_contrib, rrf_k, hk, hb]
  · have hfst : (fused_pairs idsEnum knn bm25).map (fun p => p.1) = idsEnum := by
      unfold fused_pairs
      rw [List.map_map]
      exact List.map_id _
    have h2 := hperm.map (fun p => p.1)
    rw [hfst] at h2
    exact h2.trans henum
  · haveI ht : IsTotal (String × ℚ) (fun a b => b.2 ≤ a.2) := ⟨fun a b => le_total b.2 a.2⟩
    haveI htr : IsTrans (String × ℚ) (fun a b => b.2 ≤ a.2) :=
      ⟨fun _ _ _ hab hbc => le_trans hbc hab⟩
    exact List.sorted_insertionSort _ _

/-- Witness for C1 at a concrete pair of hit lists, with the canonical id
enumeration. -/
theorem rrf_fusion_scores_sorted_witness :
    (fused_sorted (union_ids ex_knn ex_bm25) ex_knn ex_bm25).Pairwise
      (fun a b => b.2 ≤ a.2) :=
  (rrf_fusion_scores_sorted ex_knn ex_bm25 (union_ids ex_knn ex_bm25)
    (List.Perm.refl _)).2.2.2

/-- Counterexample for C1 as stated: with one id per list both score
1/61, so they tie; the enumeration `["b", "a"]` is a valid listing of the
fused id set, yet it yields a different output order than the first-seen
enumeration `["a", "b"]` — the code's tie order depends on the
unspecified set-iteration order, so ties are not broken by first-seen
order across the input lists. -/
theorem rrf_tie_order_cex :
    ValidIdsEnum ["b", "a"] ex_knn ex_bm25 ∧
    first_seen_ids ex_knn ex_bm25 = ["a", "b"] ∧
    fused_sorted ["b", "a"] ex_knn ex_bm25 ≠
      fused_sorted (first_seen_ids ex_knn ex_bm25) ex_knn ex_bm25 := by
  refine ⟨by unfold ValidIdsEnum; decide, by decide, by with_unfolding_all decide⟩

/-- C2 (amended): `src_by_id` is built over `knn_hits + bm25_hits` with
later entries overwriting, so for an id present in the lexical (BM25) hit
list the lexical source wins; the vector source is used only when no
lexical hit carries the id.  Every returned slim hit resolves its
text/meta through that map. -/
theorem hybrid_source_resolution (knn bm25 : List OSHit) (id : String) :
    ((∃ b ∈ bm25, b.hid = id) → src_by_id (knn ++ bm25) id = src_by_id bm25 id) ∧
    ((∀ b ∈ bm25, b.hid ≠ id) → src_by_id (knn ++ bm25) id = src_by_id knn id) ∧
    (∀ (idsEnum : List String) (top_k : ℕ) (h : SlimHit),
      h ∈ search_hybrid_slim idsEnum knn bm25 top_k →
      h.text = (src_by_id (knn ++ bm25) h.id).1 ∧
      h.meta = (src_by_id (knn ++ bm25) h.id).2) := by
  refine ⟨src_by_id_append_right knn bm25 id, src_by_id_append_left knn bm25 id, ?_⟩
  intro idsEnum top_k h hmem
  unfold search_hybrid_slim at hmem
  obtain ⟨p, hp, rfl⟩ := List.mem_map.mp hmem
  exact ⟨rfl, rfl⟩

/-- Witness for C2: for id `a`, present in both example lists, the
combined source map resolves to the BM25 side. -/
theorem hybrid_source_resolution_witness :
    src_by_id (ex_knn_v ++ ex_bm25_v) "a" = src_by_id ex_bm25_v "a" :=
  (hybrid_source_resolution ex_knn_v ex_bm25_v "a").1
    ⟨⟨"a", "lex", []⟩, by decide, rfl⟩

/-- Counterexample for C2 as stated: id `a` appears in both lists with
vector text "vec" and lexical text "lex"; the hybrid output resolves its
text to "lex" — the lexical hit wins, not the vector hit. -/
theorem hybrid_vector_priority_cex :
    ValidIdsEnum ["a"] ex_knn_v ex_bm25_v ∧
    (search_hybrid_slim ["a"] ex_knn_v ex_bm25_v 5).map (fun h => h.text) = ["lex"] ∧
    (search_hybrid_slim ["a"] ex_knn_v ex_bm25_v 5).map (fun h => h.text) ≠ ["vec"] := by
  refine ⟨by unfold ValidIdsEnum; decide, by with_unfolding_all decide,
    by with_unfolding_all decide⟩
